/-
Verification of the CICIDS2017 feature-usefulness pipeline
(src/dataset_engineering/notebooks/feature_interpretability_CICIDS.py).

The script is a single linear pipeline: sample rows, compute five
per-feature metrics (random-forest importance, mutual information,
Spearman correlation with the label, Cohen's d, PCA reconstruction
error), merge the five per-feature tables on feature name, min-max
normalize each metric column, combine into weighted scores, attach a
catalog group, and sort descending by the combined score.

Shallow embedding conventions:
  * data values are rationals (exact versions of the script's floats);
  * an IEEE NaN produced by a library call is modelled as `Option.none`
    (scipy's `spearmanr` returns nan -- it does not raise -- on a
    constant input, and pandas' `.std()` returns nan on a series of
    length <= 1);
  * quantities that pass through a float square root (`np.sqrt`,
    `StandardScaler`) live in `ℝ` via `Real.sqrt`;
  * the sklearn estimators (random forest, mutual information, PCA) are
    delegated library calls; they are modelled as opaque deterministic
    functions of their arguments, including the `random_state` seed
    argument the script passes;
  * `np.random.choice(N, S, replace=False)` is modelled by its
    contract: it returns some list of `S` distinct indices `< N`.
-/
import Mathlib

/-- Arithmetic mean of a column, `Series.mean()`: sum divided by length. -/
def mean (l : List ℚ) : ℚ := l.sum / l.length

/-- Arithmetic mean of a real column (`np.mean`). -/
noncomputable def meanR (l : List ℝ) : ℝ := l.sum / l.length

/-- `scipy.stats.rankdata(l, method='average')` as used inside `spearmanr`:
the rank of `x` is (number of entries below `x`) plus the average position
among the entries equal to `x`, i.e. `#(< x) + (#(= x) + 1) / 2`. -/
def rankdata (l : List ℚ) : List ℚ :=
  l.map (fun x =>
    (l.countP (fun z => decide (z < x)) : ℚ) +
      ((l.countP (fun z => decide (z = x)) : ℚ) + 1) / 2)

/-- Centered cross-product sum `Σ (aᵢ - mean a) * (bᵢ - mean b)`, the
numerator building block of the Pearson correlation of two columns. -/
def covList (a b : List ℚ) : ℚ :=
  ((a.zip b).map (fun p => (p.1 - mean a) * (p.2 - mean b))).sum

/-- `scipy.stats.spearmanr(a, b).correlation`: the Pearson correlation of
the average ranks of `a` and `b`.  When either rank vector has zero
variance (constant input, or fewer than two rows) scipy emits a
`ConstantInputWarning` -- suppressed by the script's
`warnings.filterwarnings` -- and returns IEEE nan; that nan is modelled
as `none`.  No exception is raised in this case. -/
noncomputable def spearmanr (a b : List ℚ) : Option ℝ :=
  if covList (rankdata a) (rankdata a) = 0 ∨ covList (rankdata b) (rankdata b) = 0 then
    none
  else
    some (((covList (rankdata a) (rankdata b) : ℚ) : ℝ) /
      (Real.sqrt ((covList (rankdata a) (rankdata a) : ℚ) : ℝ) *
        Real.sqrt ((covList (rankdata b) (rankdata b) : ℚ) : ℝ)))

/-- One entry of the `correlations` list (script lines 86-92):
`corr, _ = spearmanr(X_sample[feat], y_sample); abs(corr)`.
The `except` branch (which would record 0) is unreachable here because
`spearmanr` reports a degenerate input by returning nan, not by raising;
`abs` of nan is nan, so the recorded value is the nan itself. -/
noncomputable def correlationEntry (xs ys : List ℚ) : Option ℝ :=
  (spearmanr xs ys).map (fun c => |c|)

/-- `pandas.Series.std()**2` with the default `ddof=1`: the unbiased
sample variance `Σ (x - mean)² / (n - 1)`; pandas returns nan (modelled
as `none`) for a series with fewer than two entries. -/
def sampleVar (l : List ℚ) : Option ℚ :=
  if l.length < 2 then none
  else some ((l.map (fun x => (x - mean l) ^ 2)).sum / ((l.length : ℚ) - 1))

/-- The squared pooled standard deviation of script lines 101-103:
`((n_b - 1) * std_b² + (n_a - 1) * std_a²) / (n_b + n_a - 2)`.
If either group has fewer than two members its `std()` is nan and the
whole float expression is nan (`0 * nan = nan`), modelled as `none`. -/
def pooledVar (b a : List ℚ) : Option ℚ :=
  match sampleVar b, sampleVar a with
  | some vb, some va =>
      some ((((b.length : ℚ) - 1) * vb + ((a.length : ℚ) - 1) * va) /
        ((b.length : ℚ) + (a.length : ℚ) - 2))
  | _, _ => none
/-- Cohen's d of script lines 105-108: if `pooled_std > 0` (false for a
nan or zero pooled std) it is `abs(benign.mean() - attack.mean()) /
pooled_std`, else the script assigns `cohens_d = 0`. -/
noncomputable def cohens_d (b a : List ℚ) : ℝ :=
  match pooledVar b a with
  | some v =>
      if 0 < Real.sqrt (v : ℝ) then |((mean b : ℚ) : ℝ) - ((mean a : ℚ) : ℝ)| / Real.sqrt (v : ℝ)
      else 0
  | none => 0

/-- Population variance `Σ (x - mean)² / n` (ddof = 0), used by
`StandardScaler`. -/
def popVar (l : List ℚ) : ℚ := (l.map (fun x => (x - mean l) ^ 2)).sum / l.length

/-- `StandardScaler` on one column: z-score with the population standard
deviation; sklearn replaces a zero scale by 1 (`_handle_zeros_in_scale`)
to avoid division by zero. -/
noncomputable def standardizeCol (col : List ℚ) : List ℝ :=
  col.map (fun x =>
    (((x : ℚ) : ℝ) - ((mean col : ℚ) : ℝ)) /
      (if Real.sqrt ((popVar col : ℚ) : ℝ) = 0 then 1 else Real.sqrt ((popVar col : ℚ) : ℝ)))

/-- `scaler.fit_transform` on a column-major matrix: standardize every
feature column. -/
noncomputable def standardize (X : List (List ℚ)) : List (List ℝ) :=
  X.map standardizeCol

/-- Script line 126: `np.mean((X_scaled[:, i] - X_reconstructed[:, i]) ** 2)`,
the per-feature mean squared reconstruction error. -/
noncomputable def mseCols (a b : List ℝ) : ℝ :=
  meanR ((a.zip b).map (fun p => (p.1 - p.2) ^ 2))

/-- Boolean-mask row selection `X_sample[y_sample == lab][feat]` for one
column: keep the column entries whose aligned label equals `lab`. -/
def selectByLabel (c : List ℚ) (ys : List ℚ) (lab : ℚ) : List ℚ :=
  ((c.zip ys).filter (fun p => decide (p.2 = lab))).map Prod.fst

/-- The static feature catalog `FEATURE_GROUPS` (script lines 20-50):
20 named groups, each an ordered list of column names, in the script's
insertion order (Python dicts iterate in insertion order). -/
def FEATURE_GROUPS : List (String × List String) := [
  ("Flow Duration", ["Flow Duration", "Flow IAT Mean", "Flow IAT Std", "Flow IAT Max", "Flow IAT Min"]),
  ("Forward Packets", ["Total Fwd Packets", "Fwd Packet Length Max", "Fwd Packet Length Min",
    "Fwd Packet Length Mean", "Fwd Packet Length Std"]),
  ("Backward Packets", ["Total Backward Packets", "Bwd Packet Length Max", "Bwd Packet Length Min",
    "Bwd Packet Length Mean", "Bwd Packet Length Std"]),
  ("Flow Rates", ["Flow Bytes/s", "Flow Packets/s", "Fwd Packets/s", "Bwd Packets/s"]),
  ("Packet Timing", ["Fwd IAT Total", "Fwd IAT Mean", "Fwd IAT Std", "Fwd IAT Max", "Fwd IAT Min",
    "Bwd IAT Total", "Bwd IAT Mean", "Bwd IAT Std", "Bwd IAT Max", "Bwd IAT Min"]),
  ("TCP Flags", ["FIN Flag Count", "SYN Flag Count", "RST Flag Count", "PSH Flag Count",
    "ACK Flag Count", "URG Flag Count", "CWE Flag Count", "ECE Flag Count",
    "Fwd PSH Flags", "Bwd PSH Flags", "Fwd URG Flags", "Bwd URG Flags"]),
  ("Header Info", ["Fwd Header Length", "Bwd Header Length"]),
  ("Packet Size", ["Min Packet Length", "Max Packet Length", "Packet Length Mean",
    "Packet Length Std", "Packet Length Variance", "Average Packet Size"]),
  ("Bulk Transfer", ["Fwd Avg Bytes/Bulk", "Fwd Avg Packets/Bulk", "Fwd Avg Bulk Rate",
    "Bwd Avg Bytes/Bulk", "Bwd Avg Packets/Bulk", "Bwd Avg Bulk Rate"]),
  ("Subflow", ["Subflow Fwd Packets", "Subflow Fwd Bytes", "Subflow Bwd Packets", "Subflow Bwd Bytes"]),
  ("Window Size", ["Init_Win_bytes_forward", "Init_Win_bytes_backward", "act_data_pkt_fwd",
    "min_seg_size_forward"]),
  ("Active/Idle", ["Active Mean", "Active Std", "Active Max", "Active Min",
    "Idle Mean", "Idle Std", "Idle Max", "Idle Min"]),
  ("Ratios", ["Down/Up Ratio"]),
  ("Engineered - Traffic Volume", ["packets_total", "bytes_total", "avg_packet_size"]),
  ("Engineered - Asymmetry", ["packet_ratio", "byte_ratio", "is_asymmetric"]),
  ("Engineered - Connection State", ["connection_completed", "connection_failed"]),
  ("Engineered - Network Quality", ["avg_jitter", "high_jitter"]),
  ("Engineered - TCP", ["has_tcp_info", "window_size_avg"]),
  ("Engineered - Scanning", ["diverse_ports", "diverse_src_ports", "repeated_connection"]),
  ("Engineered - Response", ["response_body_len", "has_response"])]

/-- Script lines 52-54: `all_numeric_features` is the concatenation of
every group's column list, in catalog iteration order. -/
def all_numeric_features : List String := (FEATURE_GROUPS.map Prod.snd).flatten

/-- Script line 56: the catalog features that actually occur among the
input table's columns, preserving catalog order. -/
def available_features (cols : List String) : List String :=
  all_numeric_features.filter (fun f => decide (f ∈ cols))

/-- The loop body of `get_feature_group` (script lines 158-162) over an
arbitrary catalog: scan the groups in order, return the first group name
whose column list contains the feature, else `"Unknown"`. -/
def lookupGroup (feature : String) : List (String × List String) → String
  | [] => "Unknown"
  | g :: rest => if feature ∈ g.2 then g.1 else lookupGroup feature rest

/-- `get_feature_group` (script lines 158-162), hardwired to the
script's `FEATURE_GROUPS` catalog. -/
def get_feature_group (feature : String) : String :=
  lookupGroup feature FEATURE_GROUPS

/-- Script line 63: `sample_size = min(50000, len(X))`. -/
def sample_size (N : ℕ) : ℕ := min 50000 N

/-- Contract of `np.random.choice(N, S, replace=False)` (script line 64):
the returned index list has exactly `S` entries, all distinct
(replacement disabled) and all `< N`.  The call reads the unseeded
global numpy generator, so *which* such list comes back is not a
function of `N` and `S`. -/
def validChoice (N S : ℕ) (idx : List ℕ) : Prop :=
  idx.length = S ∧ idx.Nodup ∧ ∀ i ∈ idx, i < N

/-- Positional row selection `X.iloc[idx]` / `y[idx]` (script lines
65-66): the i-th output row is the `idx[i]`-th input row. -/
def ilocRows (d : α) (X : List α) (idx : List ℕ) : List α :=
  idx.map (fun i => X.getD i d)

/-- One step of a stable ascending insertion sort: insert `x` after
every element whose key is `≤ key x`, so the later-processed element
lands after its equals.  This is the stable ascending kernel with which
we model the argsort inside pandas' `nargsort`. -/
def insertAsc [LinearOrder β] (key : α → β) (x : α) : List α → List α
  | [] => [x]
  | y :: ys => if key y ≤ key x then y :: insertAsc key x ys else x :: y :: ys

/-- `DataFrame.sort_values(col, ascending=False)`: pandas' `nargsort`
reverses the column and the index array, argsorts the reversed column
ascending with a stable kernel, and then reverses the resulting indexer
back (the GH#6399 double reversal, which makes the descending sort
stable with respect to the *original* row order).  Modelled as a stable
ascending insertion sort of the reversed list, reversed: descending
order overall, and rows with equal keys keep their original relative
order. -/
def sortValuesDesc [LinearOrder β] (key : α → β) (l : List α) : List α :=
  ((l.reverse).foldl (fun acc x => insertAsc key x acc) []).reverse

/-- Descending sort of a float column containing nan (`Option.none`):
pandas keeps the nan rows out of the comparison sort and appends them
at the end (`na_position='last'`), in their original order. -/
noncomputable def sortCorrDesc (l : List (String × Option ℝ)) : List (String × Option ℝ) :=
  sortValuesDesc (fun p => p.2.getD 0) (l.filter (fun p => p.2.isSome)) ++
    l.filter (fun p => p.2.isNone)

/-- `left.merge(right, on='feature')` (inner join, script lines
133-137): for each left row in order, emit one joined row per right row
with an equal key, keeping the right rows' order. -/
def innerJoin (l : List (String × α)) (r : List (String × β)) : List (String × (α × β)) :=
  l.flatMap (fun p =>
    (r.filter (fun q => decide (q.1 = p.1))).map (fun q => (p.1, (p.2, q.2))))

/-- The four chained merges of script lines 133-137 producing
`metrics_combined` from the five per-feature frames. -/
def mergeFive (t1 : List (String × α)) (t2 : List (String × β)) (t3 : List (String × γ))
    (t4 : List (String × δ)) (t5 : List (String × ε)) :
    List (String × ((((α × β) × γ) × δ) × ε)) :=
  innerJoin (innerJoin (innerJoin (innerJoin t1 t2) t3) t4) t5

/-- One row of `metrics_combined` right after the merge: the five raw
per-feature metrics keyed by feature name. -/
structure RawRow where
  feature : String
  importance : ℚ
  mutual_info : ℚ
  correlation : ℚ
  cohens_d : ℚ
  pca_reconstruction_error : ℚ
deriving DecidableEq

/-- One row of `metrics_combined` after normalization, scoring and group
lookup (script lines 139-164). -/
structure ScoredRow extends RawRow where
  importance_norm : ℚ
  mutual_info_norm : ℚ
  correlation_norm : ℚ
  cohens_d_norm : ℚ
  pca_reconstruction_error_norm : ℚ
  usefulness_score : ℚ
  combined_score : ℚ
  feature_group : String
deriving DecidableEq

/-- `Series.max()` of a nonempty numeric column (0 for the degenerate
empty column, which the script never produces). -/
def colMax : List ℚ → ℚ
  | [] => 0
  | x :: xs => xs.foldl max x

/-- The normalization loop body (script lines 139-144), elementwise:
`col / col.max()` if the column maximum is positive, else the whole
normalized column is assigned the scalar 0. -/
def normE (col : List ℚ) (v : ℚ) : ℚ :=
  if 0 < colMax col then v / colMax col else 0

/-- Script lines 139-164 for one row of the merged table: the five
`_norm` fields (each raw value normalized by its column's maximum over
the whole table `t`), the two weighted scores with the script's exact
weights, and the catalog group. -/
def scoreRow (t : List RawRow) (r : RawRow) : ScoredRow :=
  ⟨r,
    normE (t.map RawRow.importance) r.importance,
    normE (t.map RawRow.mutual_info) r.mutual_info,
    normE (t.map RawRow.correlation) r.correlation,
    normE (t.map RawRow.cohens_d) r.cohens_d,
    normE (t.map RawRow.pca_reconstruction_error) r.pca_reconstruction_error,
    0.30 * normE (t.map RawRow.importance) r.importance +
      0.25 * normE (t.map RawRow.mutual_info) r.mutual_info +
      0.20 * normE (t.map RawRow.correlation) r.correlation +
      0.25 * normE (t.map RawRow.cohens_d) r.cohens_d,
    0.70 * (0.30 * normE (t.map RawRow.importance) r.importance +
      0.25 * normE (t.map RawRow.mutual_info) r.mutual_info +
      0.20 * normE (t.map RawRow.correlation) r.correlation +
      0.25 * normE (t.map RawRow.cohens_d) r.cohens_d) +
      0.30 * normE (t.map RawRow.pca_reconstruction_error) r.pca_reconstruction_error,
    get_feature_group r.feature⟩

/-- The whole aggregation stage (script lines 139-164) applied to the
merged table: per-column max-normalization, the two composite scores and
the group label, row by row. -/
def aggregate (t : List RawRow) : List ScoredRow :=
  t.map (scoreRow t)

/-- The behaviors of the three stochastic sklearn estimators the script
delegates to.  Each is a deterministic function of its inputs *and* of
the `random_state` seed it is constructed with (sklearn's documented
contract); a field models one estimator's input/output behavior.
Matrices are column-major: one inner list per feature, aligned with the
feature-name list. -/
structure SkLib where
  /-- `RandomForestClassifier(n_estimators, max_depth, random_state,
  n_jobs=-1).fit(X, y).feature_importances_` (script lines 71-72); the
  result is one importance per feature column. -/
  rfFeatureImportances : ℕ → ℕ → ℕ → List (List ℚ) → List ℚ → List ℚ
  /-- `mutual_info_classif(X, y, random_state=...)` (script line 79). -/
  mutualInfoClassif : ℕ → List (List ℚ) → List ℚ → List ℚ
  /-- `PCA(n_components, random_state=...).fit_transform` followed by
  `inverse_transform` (script lines 120-122): the low-rank
  reconstruction of the standardized matrix. -/
  pcaReconstruct : ℕ → ℕ → List (List ℝ) → List (List ℝ)

/-- The five per-feature metric frames one run of the script builds
(script lines 70-129), under the source names. -/
structure RunFrames where
  feature_importance : List (String × ℚ)
  mutual_info : List (String × ℚ)
  correlation_df : List (String × Option ℝ)
  separability_df : List (String × ℝ)
  reconstruction_df : List (String × ℝ)

/-- One run of the metric-estimation stage (script lines 70-129) on a
fixed sampled feature matrix (column `f` of `X_sample` is `Xcol f`) and
label vector `ys`, delegating the three stochastic estimators to `lib`.
Every stochastic call passes the literal seed `42` exactly as the
script's `random_state=42`; the correlation and separability loops and
the scaler are seed-free.  `n_components = min(20, F)` as in script
line 119. -/
noncomputable def runFrames (lib : SkLib) (feats : List String) (Xcol : String → List ℚ)
    (ys : List ℚ) : RunFrames :=
  ⟨sortValuesDesc Prod.snd
      (feats.zip (lib.rfFeatureImportances 100 10 42 (feats.map Xcol) ys)),
    sortValuesDesc Prod.snd (feats.zip (lib.mutualInfoClassif 42 (feats.map Xcol) ys)),
    sortCorrDesc (feats.map (fun f => (f, correlationEntry (Xcol f) ys))),
    sortValuesDesc Prod.snd
      (feats.map (fun f =>
        (f, cohens_d (selectByLabel (Xcol f) ys 0) (selectByLabel (Xcol f) ys 1)))),
    feats.zip (List.zipWith mseCols (standardize (feats.map Xcol))
      (lib.pcaReconstruct (min 20 feats.length) 42 (standardize (feats.map Xcol))))⟩

/-- The merged `metrics_combined` key structure fed by one run's five
frames (script lines 133-137). -/
noncomputable def mergedFrames (lib : SkLib) (feats : List String) (Xcol : String → List ℚ)
    (ys : List ℚ) :
    List (String × ((((ℚ × ℚ) × Option ℝ) × ℝ) × ℝ)) :=
  mergeFive (runFrames lib feats Xcol ys).feature_importance
    (runFrames lib feats Xcol ys).mutual_info
    (runFrames lib feats Xcol ys).correlation_df
    (runFrames lib feats Xcol ys).separability_df
    (runFrames lib feats Xcol ys).reconstruction_df

theorem mean_const (l : List ℚ) (c : ℚ) (hne : l ≠ []) (h : ∀ x ∈ l, x = c) :
    mean l = c := by
  have hlen : (l.length : ℚ) ≠ 0 := by
    exact_mod_cast Nat.cast_ne_zero.mpr (fun h0 => hne (List.length_eq_zero.mp h0))
  have hsum : l.sum = (l.length : ℚ) * c := by
    rw [List.sum_eq_card_nsmul l c h, nsmul_eq_mul]
  rw [mean, hsum, mul_comm, mul_div_assoc, div_self hlen, mul_one]

theorem covList_self_const (l : List ℚ) (r : ℚ) (h : ∀ x ∈ l, x = r) :
    covList l l = 0 := by
  rcases eq_or_ne l [] with rfl | hne
  · simp [covList]
  · have hm : mean l = r := mean_const l r hne h
    apply List.sum_eq_zero
    intro x hx
    rcases List.mem_map.1 hx with ⟨p, hp, rfl⟩
    have h1 : p.1 = r := h p.1 (List.of_mem_zip hp).1
    rw [h1, hm, sub_self, zero_mul]

theorem rankdata_const (xs : List ℚ) (c : ℚ) (h : ∀ x ∈ xs, x = c) :
    ∀ v ∈ rankdata xs,
      v = (xs.countP (fun z => decide (z < c)) : ℚ) +
        ((xs.countP (fun z => decide (z = c)) : ℚ) + 1) / 2 := by
  intro v hv
  rcases List.mem_map.1 hv with ⟨x, hx, rfl⟩
  rw [h x hx]

/-- Claim C1: the script's correlation estimator does *not* record 0 for a
feature that is constant within the sample; `scipy.stats.spearmanr`
returns nan (it does not raise, so the `except` branch that would record
0 never runs), `abs(nan)` is nan, and that undefined value is what gets
recorded (and later propagated through normalization and scoring). -/
theorem correlation_constant_feature_records_nan (xs ys : List ℚ) (c : ℚ)
    (h : ∀ x ∈ xs, x = c) : correlationEntry xs ys = none := by
  have h0 : covList (rankdata xs) (rankdata xs) = 0 :=
    covList_self_const _ _ (rankdata_const xs c h)
  rw [correlationEntry, spearmanr, if_pos (Or.inl h0)]
  rfl

/-- Witness for C1 at the concrete constant feature `[1, 1, 1]` with
labels `[0, 1, 0]`. -/
theorem correlation_constant_feature_records_nan_witness :
    correlationEntry [1, 1, 1] [0, 1, 0] = none :=
  correlation_constant_feature_records_nan [1, 1, 1] [0, 1, 0] 1 (by decide)

theorem sampleVar_eq_none (l : List ℚ) (h : l.length ≤ 1) : sampleVar l = none := by
  rw [sampleVar, if_pos]
  omega

theorem sampleVar_length (l : List ℚ) (v : ℚ) (h : sampleVar l = some v) :
    2 ≤ l.length := by
  by_contra hlt
  rw [sampleVar_eq_none l (by omega)] at h
  exact Option.noConfusion h

theorem sampleVar_nonneg (l : List ℚ) (v : ℚ) (h : sampleVar l = some v) : 0 ≤ v := by
  have hlen := sampleVar_length l v h
  rw [sampleVar, if_neg (by omega)] at h
  have hv := Option.some.inj h
  rw [← hv]
  apply div_nonneg
  · apply List.sum_nonneg
    intro x hx
    rcases List.mem_map.1 hx with ⟨y, _, rfl⟩
    positivity
  · have h2 : (2 : ℚ) ≤ (l.length : ℚ) := by exact_mod_cast hlen
    linarith

theorem sampleVar_const (l : List ℚ) (c : ℚ) (hlen : 2 ≤ l.length)
    (h : ∀ x ∈ l, x = c) : sampleVar l = some 0 := by
  have hne : l ≠ [] := by
    intro h0
    rw [h0] at hlen
    simp at hlen
  rw [sampleVar, if_neg (by omega)]
  have hm : mean l = c := mean_const l c hne h
  have hsum : (l.map fun x => (x - mean l) ^ 2).sum = 0 := by
    apply List.sum_eq_zero
    intro x hx
    rcases List.mem_map.1 hx with ⟨y, hy, rfl⟩
    rw [h y hy, hm, sub_self]
    ring
  rw [hsum, zero_div]

theorem pooledVar_none_left (b a : List ℚ) (h : sampleVar b = none) :
    pooledVar b a = none := by
  unfold pooledVar
  rw [h]

theorem pooledVar_none_right (b a : List ℚ) (h : sampleVar a = none) :
    pooledVar b a = none := by
  unfold pooledVar
  rw [h]
  cases sampleVar b <;> rfl

/-- Claim C4: the effect-size estimator (script lines 96-110). The pooled
variance is never negative; whenever the pooled standard deviation fails
to be positive -- it is nan (one class with at most one member) or zero
(both classes internally constant) -- the script assigns 0; otherwise it
returns `abs(mean difference) / pooled_std`. -/
theorem cohens_d_degenerate_zero_else_standardized_diff (b a : List ℚ) :
    (∀ v, pooledVar b a = some v → 0 ≤ v) ∧
    (pooledVar b a = none → cohens_d b a = 0) ∧
    (pooledVar b a = some 0 → cohens_d b a = 0) ∧
    (b.length ≤ 1 ∨ a.length ≤ 1 → cohens_d b a = 0) ∧
    ((∃ c, ∀ x ∈ b, x = c) → (∃ c, ∀ x ∈ a, x = c) → cohens_d b a = 0) ∧
    (∀ v, pooledVar b a = some v → 0 < v →
      cohens_d b a = |((mean b : ℚ) : ℝ) - ((mean a : ℚ) : ℝ)| / Real.sqrt (v : ℝ)) := by
  have h_none : pooledVar b a = none → cohens_d b a = 0 := by
    intro h
    simp [cohens_d, h]
  have h_some0 : pooledVar b a = some 0 → cohens_d b a = 0 := by
    intro h
    simp [cohens_d, h]
  have h_short : b.length ≤ 1 ∨ a.length ≤ 1 → cohens_d b a = 0 := by
    rintro (hb | ha)
    · exact h_none (pooledVar_none_left b a (sampleVar_eq_none b hb))
    · exact h_none (pooledVar_none_right b a (sampleVar_eq_none a ha))
  refine ⟨?_, h_none, h_some0, h_short, ?_, ?_⟩
  · intro v h
    unfold pooledVar at h
    rcases hb : sampleVar b with _ | vb <;> rw [hb] at h
    · exact Option.noConfusion h
    rcases ha : sampleVar a with _ | va <;> rw [ha] at h
    · exact Option.noConfusion h
    have hv := Option.some.inj h
    rw [← hv]
    have hb2 : (2 : ℚ) ≤ (b.length : ℚ) := by exact_mod_cast sampleVar_length b vb hb
    have ha2 : (2 : ℚ) ≤ (a.length : ℚ) := by exact_mod_cast sampleVar_length a va ha
    have hvb := sampleVar_nonneg b vb hb
    have hva := sampleVar_nonneg a va ha
    apply div_nonneg
    · nlinarith
    · linarith
  · rintro ⟨cb, hcb⟩ ⟨ca, hca⟩
    rcases le_or_lt b.length 1 with hb1 | hb2
    · exact h_short (Or.inl hb1)
    rcases le_or_lt a.length 1 with ha1 | ha2
    · exact h_short (Or.inr ha1)
    have hvb := sampleVar_const b cb (by omega) hcb
    have hva := sampleVar_const a ca (by omega) hca
    apply h_some0
    unfold pooledVar
    rw [hvb, hva]
    norm_num
  · intro v h hv
    have hs : (0 : ℝ) < Real.sqrt (v : ℝ) :=
      Real.sqrt_pos.2 (by exact_mod_cast hv)
    simp [cohens_d, h, hs]

/-- Witness for C4: a class with a single member (`[1]` vs `[2, 3]`) and
two internally constant classes (`[5, 5]` vs `[7, 7, 7]`) both get
effect size 0. -/
theorem cohens_d_degenerate_zero_witness :
    cohens_d [1] [2, 3] = 0 ∧ cohens_d [5, 5] [7, 7, 7] = 0 :=
  ⟨(cohens_d_degenerate_zero_else_standardized_diff [1] [2, 3]).2.2.2.1
      (Or.inl (by decide)),
    (cohens_d_degenerate_zero_else_standardized_diff [5, 5] [7, 7, 7]).2.2.2.2.1
      ⟨5, by decide⟩ ⟨7, by decide⟩⟩

theorem le_foldl_max_init (xs : List ℚ) (x : ℚ) : x ≤ xs.foldl max x := by
  induction xs generalizing x with
  | nil => exact le_refl x
  | cons y ys ih =>
      rw [List.foldl_cons]
      exact le_trans (le_max_left x y) (ih (max x y))

theorem mem_le_foldl_max (xs : List ℚ) (x : ℚ) : ∀ v ∈ xs, v ≤ xs.foldl max x := by
  induction xs generalizing x with
  | nil => intro v hv; exact absurd hv (List.not_mem_nil v)
  | cons y ys ih =>
      intro v hv
      rw [List.foldl_cons]
      rcases List.mem_cons.1 hv with rfl | hv2
      · exact le_trans (le_max_right x v) (le_foldl_max_init ys (max x v))
      · exact ih (max x y) v hv2

theorem foldl_max_eq_or_mem (xs : List ℚ) (x : ℚ) :
    xs.foldl max x = x ∨ xs.foldl max x ∈ xs := by
  induction xs generalizing x with
  | nil => left; rfl
  | cons y ys ih =>
      rw [List.foldl_cons]
      rcases ih (max x y) with h | h
      · rcases max_choice x y with hc | hc
        · left; rw [h, hc]
        · right; rw [h, hc]; exact List.mem_cons_self y ys
      · right; exact List.mem_cons_of_mem y h

theorem colMax_mem (l : List ℚ) (h : l ≠ []) : colMax l ∈ l := by
  cases l with
  | nil => exact absurd rfl h
  | cons x xs =>
      rcases foldl_max_eq_or_mem xs x with h2 | h2
      · rw [colMax, h2]; exact List.mem_cons_self x xs
      · exact List.mem_cons_of_mem x h2

theorem le_colMax (l : List ℚ) : ∀ v ∈ l, v ≤ colMax l := by
  cases l with
  | nil => intro v hv; exact absurd hv (List.not_mem_nil v)
  | cons x xs =>
      intro v hv
      rcases List.mem_cons.1 hv with rfl | hv2
      · exact le_foldl_max_init xs v
      · exact mem_le_foldl_max xs x v hv2

theorem normE_bounds (col : List ℚ) (v : ℚ) (h0 : ∀ w ∈ col, 0 ≤ w) (hv : v ∈ col) :
    0 ≤ normE col v ∧ normE col v ≤ 1 := by
  unfold normE
  by_cases hm : 0 < colMax col
  · rw [if_pos hm]
    exact ⟨div_nonneg (h0 v hv) hm.le, (div_le_one hm).2 (le_colMax col v hv)⟩
  · rw [if_neg hm]
    exact ⟨le_refl 0, zero_le_one⟩

theorem normE_allzero_iff (col : List ℚ) (hne : col ≠ []) (h0 : ∀ w ∈ col, 0 ≤ w) :
    (∀ v ∈ col, normE col v = 0) ↔ colMax col = 0 := by
  constructor
  · intro hall
    have hnn : 0 ≤ colMax col := h0 _ (colMax_mem col hne)
    rcases eq_or_lt_of_le hnn with heq | hlt
    · exact heq.symm
    · exfalso
      have h1 := hall (colMax col) (colMax_mem col hne)
      rw [normE, if_pos hlt, div_self (ne_of_gt hlt)] at h1
      exact one_ne_zero h1
  · intro hm v _
    rw [normE, hm]
    simp

theorem normE_div (col : List ℚ) (v : ℚ) (hm : 0 < colMax col) :
    normE col v = v / colMax col := if_pos hm

theorem agg_col_props (t : List RawRow) (hne : t ≠ [])
    (get : RawRow → ℚ) (getN : ScoredRow → ℚ)
    (hcompat : ∀ r, getN (scoreRow t r) = normE (t.map get) (get r))
    (h0 : ∀ r ∈ t, 0 ≤ get r) :
    (∀ s ∈ aggregate t, 0 ≤ getN s ∧ getN s ≤ 1) ∧
    ((∀ s ∈ aggregate t, getN s = 0) ↔ colMax (t.map get) = 0) ∧
    (0 < colMax (t.map get) →
      ∀ s ∈ aggregate t, getN s = get s.toRawRow / colMax (t.map get)) := by
  have hcolne : t.map get ≠ [] := by
    intro h
    exact hne (List.map_eq_nil_iff.1 h)
  have h0c : ∀ w ∈ t.map get, 0 ≤ w := by
    intro w hw
    rcases List.mem_map.1 hw with ⟨r, hr, rfl⟩
    exact h0 r hr
  refine ⟨?_, ⟨?_, ?_⟩, ?_⟩
  · intro s hs
    rcases List.mem_map.1 hs with ⟨r, hr, rfl⟩
    rw [hcompat]
    exact normE_bounds _ _ h0c (List.mem_map_of_mem get hr)
  · intro hall
    apply (normE_allzero_iff (t.map get) hcolne h0c).1
    intro v hv
    rcases List.mem_map.1 hv with ⟨r, hr, rfl⟩
    have h1 := hall (scoreRow t r) (List.mem_map_of_mem (scoreRow t) hr)
    rw [hcompat] at h1
    exact h1
  · intro hm s hs
    rcases List.mem_map.1 hs with ⟨r, hr, rfl⟩
    rw [hcompat]
    exact (normE_allzero_iff (t.map get) hcolne h0c).2 hm _ (List.mem_map_of_mem get hr)
  · intro hm s hs
    rcases List.mem_map.1 hs with ⟨r, hr, rfl⟩
    rw [hcompat, normE_div _ _ hm]
    rfl

/-- Claim C3: for each of the five metric columns of the merged table,
under non-negative raw values: every `_norm` entry is in [0, 1]; the
`_norm` column is identically 0 exactly when the raw column's maximum is
0; and when that maximum is positive each entry is the raw value divided
by the column maximum. -/
theorem norm_columns_bounds_and_zero_iff (t : List RawRow) (hne : t ≠ [])
    (h : ∀ r ∈ t, 0 ≤ r.importance ∧ 0 ≤ r.mutual_info ∧ 0 ≤ r.correlation ∧
      0 ≤ r.cohens_d ∧ 0 ≤ r.pca_reconstruction_error) :
    ((∀ s ∈ aggregate t, 0 ≤ s.importance_norm ∧ s.importance_norm ≤ 1) ∧
      ((∀ s ∈ aggregate t, s.importance_norm = 0) ↔
        colMax (t.map RawRow.importance) = 0) ∧
      (0 < colMax (t.map RawRow.importance) → ∀ s ∈ aggregate t,
        s.importance_norm = s.importance / colMax (t.map RawRow.importance))) ∧
    ((∀ s ∈ aggregate t, 0 ≤ s.mutual_info_norm ∧ s.mutual_info_norm ≤ 1) ∧
      ((∀ s ∈ aggregate t, s.mutual_info_norm = 0) ↔
        colMax (t.map RawRow.mutual_info) = 0) ∧
      (0 < colMax (t.map RawRow.mutual_info) → ∀ s ∈ aggregate t,
        s.mutual_info_norm = s.mutual_info / colMax (t.map RawRow.mutual_info))) ∧
    ((∀ s ∈ aggregate t, 0 ≤ s.correlation_norm ∧ s.correlation_norm ≤ 1) ∧
      ((∀ s ∈ aggregate t, s.correlation_norm = 0) ↔
        colMax (t.map RawRow.correlation) = 0) ∧
      (0 < colMax (t.map RawRow.correlation) → ∀ s ∈ aggregate t,
        s.correlation_norm = s.correlation / colMax (t.map RawRow.correlation))) ∧
    ((∀ s ∈ aggregate t, 0 ≤ s.cohens_d_norm ∧ s.cohens_d_norm ≤ 1) ∧
      ((∀ s ∈ aggregate t, s.cohens_d_norm = 0) ↔
        colMax (t.map RawRow.cohens_d) = 0) ∧
      (0 < colMax (t.map RawRow.cohens_d) → ∀ s ∈ aggregate t,
        s.cohens_d_norm = s.cohens_d / colMax (t.map RawRow.cohens_d))) ∧
    ((∀ s ∈ aggregate t, 0 ≤ s.pca_reconstruction_error_norm ∧
        s.pca_reconstruction_error_norm ≤ 1) ∧
      ((∀ s ∈ aggregate t, s.pca_reconstruction_error_norm = 0) ↔
        colMax (t.map RawRow.pca_reconstruction_error) = 0) ∧
      (0 < colMax (t.map RawRow.pca_reconstruction_error) → ∀ s ∈ aggregate t,
        s.pca_reconstruction_error_norm =
          s.pca_reconstruction_error / colMax (t.map RawRow.pca_reconstruction_error))) :=
  ⟨agg_col_props t hne RawRow.importance ScoredRow.importance_norm
      (fun _ => rfl) (fun r hr => (h r hr).1),
    agg_col_props t hne RawRow.mutual_info ScoredRow.mutual_info_norm
      (fun _ => rfl) (fun r hr => (h r hr).2.1),
    agg_col_props t hne RawRow.correlation ScoredRow.correlation_norm
      (fun _ => rfl) (fun r hr => (h r hr).2.2.1),
    agg_col_props t hne RawRow.cohens_d ScoredRow.cohens_d_norm
      (fun _ => rfl) (fun r hr => (h r hr).2.2.2.1),
    agg_col_props t hne RawRow.pca_reconstruction_error ScoredRow.pca_reconstruction_error_norm
      (fun _ => rfl) (fun r hr => (h r hr).2.2.2.2)⟩

/-- Witness for C3 on the one-row table whose metrics are all 1. -/
theorem norm_columns_bounds_and_zero_iff_witness :
    0 ≤ (⟨⟨"Flow Duration", 1, 1, 1, 1, 1⟩, 1, 1, 1, 1, 1, 1, 1,
        "Flow Duration"⟩ : ScoredRow).importance_norm ∧
    (⟨⟨"Flow Duration", 1, 1, 1, 1, 1⟩, 1, 1, 1, 1, 1, 1, 1,
        "Flow Duration"⟩ : ScoredRow).importance_norm ≤ 1 := by
  have hagg : aggregate [⟨"Flow Duration", 1, 1, 1, 1, 1⟩] =
      [⟨⟨"Flow Duration", 1, 1, 1, 1, 1⟩, 1, 1, 1, 1, 1, 1, 1, "Flow Duration"⟩] := by
    simp [aggregate, scoreRow, normE, colMax, get_feature_group, lookupGroup, FEATURE_GROUPS]
    norm_num
  exact (norm_columns_bounds_and_zero_iff [⟨"Flow Duration", 1, 1, 1, 1, 1⟩]
      (by simp) (by norm_num)).1.1
    ⟨⟨"Flow Duration", 1, 1, 1, 1, 1⟩, 1, 1, 1, 1, 1, 1, 1, "Flow Duration"⟩
    (by rw [hagg]; exact List.mem_singleton_self _)

/-- Claim C2: in the merged metrics table each row's `usefulness_score`
is the 0.30/0.25/0.20/0.25-weighted sum of the four normalized
predictiveness metrics and `combined_score` is
`0.70 * usefulness_score + 0.30 * pca_reconstruction_error_norm`; the
weights sum to 1, so whenever the normalized inputs are in [0, 1] both
scores are in [0, 1]. -/
theorem usefulness_combined_scores_formula_and_bounds (t : List RawRow) :
    ∀ s ∈ aggregate t,
      s.usefulness_score = 0.30 * s.importance_norm + 0.25 * s.mutual_info_norm +
        0.20 * s.correlation_norm + 0.25 * s.cohens_d_norm ∧
      s.combined_score = 0.70 * s.usefulness_score +
        0.30 * s.pca_reconstruction_error_norm ∧
      ((0.30 : ℚ) + 0.25 + 0.20 + 0.25 = 1 ∧ (0.70 : ℚ) + 0.30 = 1) ∧
      (0 ≤ s.importance_norm → s.importance_norm ≤ 1 →
        0 ≤ s.mutual_info_norm → s.mutual_info_norm ≤ 1 →
        0 ≤ s.correlation_norm → s.correlation_norm ≤ 1 →
        0 ≤ s.cohens_d_norm → s.cohens_d_norm ≤ 1 →
        0 ≤ s.pca_reconstruction_error_norm → s.pca_reconstruction_error_norm ≤ 1 →
        (0 ≤ s.usefulness_score ∧ s.usefulness_score ≤ 1) ∧
        (0 ≤ s.combined_score ∧ s.combined_score ≤ 1)) := by
  intro s hs
  rcases List.mem_map.1 hs with ⟨r, _, rfl⟩
  have e1 : (scoreRow t r).usefulness_score =
      0.30 * (scoreRow t r).importance_norm + 0.25 * (scoreRow t r).mutual_info_norm +
        0.20 * (scoreRow t r).correlation_norm + 0.25 * (scoreRow t r).cohens_d_norm := rfl
  have e2 : (scoreRow t r).combined_score =
      0.70 * (scoreRow t r).usefulness_score +
        0.30 * (scoreRow t r).pca_reconstruction_error_norm := rfl
  refine ⟨e1, e2, ⟨by norm_num, by norm_num⟩, ?_⟩
  intro h1 h2 h3 h4 h5 h6 h7 h8 h9 h10
  refine ⟨⟨?_, ?_⟩, ?_, ?_⟩
  · rw [e1]; linarith
  · rw [e1]; linarith
  · rw [e2, e1]; linarith
  · rw [e2, e1]; linarith

/-- Witness for C2 on the one-row table whose metrics are all 1: both
scores evaluate to 1 and the bounds hold. -/
theorem usefulness_combined_scores_bounds_witness :
    (0 ≤ (⟨⟨"Flow Duration", 1, 1, 1, 1, 1⟩, 1, 1, 1, 1, 1, 1, 1,
          "Flow Duration"⟩ : ScoredRow).usefulness_score ∧
      (⟨⟨"Flow Duration", 1, 1, 1, 1, 1⟩, 1, 1, 1, 1, 1, 1, 1,
          "Flow Duration"⟩ : ScoredRow).usefulness_score ≤ 1) ∧
    (0 ≤ (⟨⟨"Flow Duration", 1, 1, 1, 1, 1⟩, 1, 1, 1, 1, 1, 1, 1,
          "Flow Duration"⟩ : ScoredRow).combined_score ∧
      (⟨⟨"Flow Duration", 1, 1, 1, 1, 1⟩, 1, 1, 1, 1, 1, 1, 1,
          "Flow Duration"⟩ : ScoredRow).combined_score ≤ 1) := by
  have hagg : aggregate [⟨"Flow Duration", 1, 1, 1, 1, 1⟩] =
      [⟨⟨"Flow Duration", 1, 1, 1, 1, 1⟩, 1, 1, 1, 1, 1, 1, 1, "Flow Duration"⟩] := by
    simp [aggregate, scoreRow, normE, colMax, get_feature_group, lookupGroup, FEATURE_GROUPS]
    norm_num
  exact (usefulness_combined_scores_formula_and_bounds [⟨"Flow Duration", 1, 1, 1, 1, 1⟩]
      ⟨⟨"Flow Duration", 1, 1, 1, 1, 1⟩, 1, 1, 1, 1, 1, 1, 1, "Flow Duration"⟩
      (by rw [hagg]; exact List.mem_singleton_self _)).2.2.2
    (by norm_num) (by norm_num) (by norm_num) (by norm_num) (by norm_num)
    (by norm_num) (by norm_num) (by norm_num) (by norm_num) (by norm_num)

/-- Claim C5: the sampler (script lines 63-66) draws exactly
`min(50000, N)` rows: any index list satisfying `np.random.choice`'s
without-replacement contract yields a feature sample and a label sample
of that exact size, the indices are pairwise distinct, and at every
sampled position `i` the feature row and the label both come from the
same original row `idx[i]` (which is a valid row of the input). -/
theorem sampler_size_and_alignment {α β : Type} (dx : α) (dy : β) (N : ℕ)
    (X : List α) (y : List β) (idx : List ℕ)
    (_hX : X.length = N) (_hy : y.length = N)
    (hidx : validChoice N (sample_size N) idx) :
    (ilocRows dx X idx).length = min 50000 N ∧
    (ilocRows dy y idx).length = min 50000 N ∧
    idx.Nodup ∧
    ∀ i, i < sample_size N →
      (ilocRows dx X idx).getD i dx = X.getD (idx.getD i 0) dx ∧
      (ilocRows dy y idx).getD i dy = y.getD (idx.getD i 0) dy ∧
      idx.getD i 0 < N := by
  obtain ⟨hlen, hnd, hbound⟩ := hidx
  have hlx : (ilocRows dx X idx).length = min 50000 N := by
    rw [ilocRows, List.length_map, hlen]
    rfl
  have hly : (ilocRows dy y idx).length = min 50000 N := by
    rw [ilocRows, List.length_map, hlen]
    rfl
  refine ⟨hlx, hly, hnd, ?_⟩
  intro i hi
  have hii : i < idx.length := by
    rw [hlen]
    exact hi
  have hmem : idx.getD i 0 ∈ idx := by
    rw [List.getD_eq_getElem idx 0 hii]
    exact List.getElem_mem hii
  refine ⟨?_, ?_, hbound _ hmem⟩
  · rw [ilocRows, List.getD_eq_getElem _ dx (by simpa using hii),
      List.getD_eq_getElem idx 0 hii]
    simp
  · rw [ilocRows, List.getD_eq_getElem _ dy (by simpa using hii),
      List.getD_eq_getElem idx 0 hii]
    simp

/-- Witness for C5: three rows, the full 3-element sample `[2, 0, 1]`. -/
theorem sampler_size_and_alignment_witness :
    (ilocRows 0 [10, 20, 30] [2, 0, 1]).length = min 50000 3 ∧
    (ilocRows 0 [10, 20, 30] [2, 0, 1]).getD 0 0 =
      [10, 20, 30].getD ([2, 0, 1].getD 0 0) 0 ∧
    (ilocRows "a" ["u", "v", "w"] [2, 0, 1]).getD 0 "a" =
      ["u", "v", "w"].getD ([2, 0, 1].getD 0 0) "a" := by
  have h := sampler_size_and_alignment 0 "a" 3 [10, 20, 30] ["u", "v", "w"]
    [2, 0, 1] rfl rfl ⟨rfl, by decide, by decide⟩
  exact ⟨h.1, (h.2.2.2 0 (by decide)).1, (h.2.2.2 0 (by decide)).2.1⟩

/-- Claim C7 (refuting the seed-parameter claim): the sampling call
`np.random.choice(len(X), sample_size, replace=False)` at script line 64
reads the unseeded global numpy generator and takes no seed argument, so
its contract admits several different index lists on the very same
input table -- the sample, and with it the downstream ranking, is not a
function of the input.  Concretely, on a 3-row table two valid draws
produce different samples. -/
theorem sample_not_determined_by_input :
    ∃ idx1 idx2 : List ℕ,
      validChoice 3 (sample_size 3) idx1 ∧ validChoice 3 (sample_size 3) idx2 ∧
      idx1 ≠ idx2 ∧
      ilocRows (0 : ℚ) [10, 20, 30] idx1 ≠ ilocRows (0 : ℚ) [10, 20, 30] idx2 :=
  ⟨[0, 1, 2], [2, 1, 0], ⟨rfl, by decide, by decide⟩, ⟨rfl, by decide, by decide⟩,
    by decide, by decide⟩

theorem insertAsc_perm [LinearOrder β] (key : α → β) (x : α) (l : List α) :
    List.Perm (insertAsc key x l) (x :: l) := by
  induction l with
  | nil => exact List.Perm.refl _
  | cons y ys ih =>
      rw [insertAsc]
      by_cases h : key y ≤ key x
      · rw [if_pos h]
        exact (ih.cons y).trans (List.Perm.swap x y ys)
      · rw [if_neg h]

theorem foldl_insertAsc_perm [LinearOrder β] (key : α → β) (l acc : List α) :
    List.Perm (l.foldl (fun a x => insertAsc key x a) acc) (l ++ acc) := by
  induction l generalizing acc with
  | nil => simp
  | cons x l2 ih =>
      rw [List.foldl_cons]
      exact (ih (insertAsc key x acc)).trans
        ((List.Perm.append_left l2 (insertAsc_perm key x acc)).trans List.perm_middle)

theorem sortValuesDesc_perm [LinearOrder β] (key : α → β) (l : List α) :
    List.Perm (sortValuesDesc key l) l := by
  have h1 : List.Perm (sortValuesDesc key l) (l.reverse ++ []) :=
    (List.reverse_perm _).trans (foldl_insertAsc_perm key l.reverse [])
  rw [List.append_nil] at h1
  exact h1.trans (List.reverse_perm l)

theorem lookupGroup_first_match (f : String) (cat : List (String × List String)) :
    ((∀ g ∈ cat, f ∉ g.2) → lookupGroup f cat = "Unknown") ∧
    (∀ i (hi : i < cat.length), f ∈ (cat.get ⟨i, hi⟩).2 →
      (∀ j (hj : j < i), f ∉ (cat.get ⟨j, lt_trans hj hi⟩).2) →
      lookupGroup f cat = (cat.get ⟨i, hi⟩).1) := by
  induction cat with
  | nil =>
      refine ⟨fun _ => rfl, ?_⟩
      intro i hi
      exact absurd hi (Nat.not_lt_zero i)
  | cons g rest ih =>
      constructor
      · intro hall
        rw [lookupGroup, if_neg (hall g (List.mem_cons_self g rest))]
        exact ih.1 (fun g2 hg2 => hall g2 (List.mem_cons_of_mem g hg2))
      · intro i hi hmem hprev
        cases i with
        | zero =>
            rw [lookupGroup, if_pos (show f ∈ g.2 from hmem)]
            rfl
        | succ i2 =>
            have hg : f ∉ g.2 := hprev 0 (Nat.succ_pos i2)
            rw [lookupGroup, if_neg hg]
            exact ih.2 i2 (Nat.lt_of_succ_lt_succ hi) hmem
              (fun j hj => hprev (j + 1) (Nat.succ_lt_succ hj))

/-- Claim C9: `get_feature_group` returns the name of the *first* catalog
group (in `FEATURE_GROUPS` definition order) whose column list contains
the feature, and `"Unknown"` when no group contains it. -/
theorem feature_group_first_match (f : String) :
    ((∀ g ∈ FEATURE_GROUPS, f ∉ g.2) → get_feature_group f = "Unknown") ∧
    (∀ i (hi : i < FEATURE_GROUPS.length), f ∈ (FEATURE_GROUPS.get ⟨i, hi⟩).2 →
      (∀ j (hj : j < i), f ∉ (FEATURE_GROUPS.get ⟨j, lt_trans hj hi⟩).2) →
      get_feature_group f = (FEATURE_GROUPS.get ⟨i, hi⟩).1) :=
  lookupGroup_first_match f FEATURE_GROUPS

/-- Witness for C9: "Flow IAT Mean" lives in the first group
("Flow Duration"); a name in no group maps to "Unknown". -/
theorem feature_group_first_match_witness :
    get_feature_group "Flow IAT Mean" = "Flow Duration" ∧
    get_feature_group "not a column" = "Unknown" :=
  ⟨(feature_group_first_match "Flow IAT Mean").2 0 (by decide) (by decide)
      (fun j hj => absurd hj (Nat.not_lt_zero j)),
    (feature_group_first_match "not a column").1 (by decide)⟩

theorem all_numeric_features_nodup : all_numeric_features.Nodup := by decide

theorem available_features_nodup (cols : List String) :
    (available_features cols).Nodup :=
  all_numeric_features_nodup.filter _

theorem filter_key_singleton {β2 : Type} (r : List (String × β2)) (k : String)
    (hnd : (r.map Prod.fst).Nodup) (hk : k ∈ r.map Prod.fst) :
    ∃ v, r.filter (fun q => decide (q.1 = k)) = [(k, v)] := by
  induction r with
  | nil => simp at hk
  | cons q rest ih =>
      obtain ⟨q1, q2⟩ := q
      rw [List.map_cons, List.nodup_cons] at hnd
      rw [List.map_cons, List.mem_cons] at hk
      by_cases hqk : q1 = k
      · subst hqk
        refine ⟨q2, ?_⟩
        rw [List.filter_cons_of_pos (by simp)]
        have h2 : rest.filter (fun q2 => decide (q2.1 = q1)) = [] := by
          apply List.filter_eq_nil_iff.2
          intro p hp
          simp only [decide_eq_true_eq]
          intro hpk
          exact hnd.1 (List.mem_map.2 ⟨p, hp, hpk⟩)
        rw [h2]
      · have hk2 : k ∈ rest.map Prod.fst := by
          rcases hk with hk1 | hk2
          · exact absurd hk1.symm hqk
          · exact hk2
        obtain ⟨v, hv⟩ := ih hnd.2 hk2
        exact ⟨v, by rw [List.filter_cons_of_neg (by simp [hqk]), hv]⟩

theorem innerJoin_keys {α2 β2 : Type} (l : List (String × α2)) (r : List (String × β2))
    (hnd : (r.map Prod.fst).Nodup) (hsub : ∀ k ∈ l.map Prod.fst, k ∈ r.map Prod.fst) :
    (innerJoin l r).map Prod.fst = l.map Prod.fst := by
  induction l with
  | nil => rfl
  | cons p l2 ih =>
      obtain ⟨v, hv⟩ := filter_key_singleton r p.1 hnd (hsub p.1 (by simp))
      have e : innerJoin (p :: l2) r =
          ((r.filter (fun q => decide (q.1 = p.1))).map (fun q => (p.1, (p.2, q.2)))) ++
            innerJoin l2 r := rfl
      rw [e, List.map_append, hv]
      have ih2 := ih (fun k hk => hsub k (List.mem_cons_of_mem p.1 hk))
      rw [ih2]
      rfl

theorem sortCorrDesc_perm (l : List (String × Option ℝ)) :
    List.Perm (sortCorrDesc l) l := by
  have h1 : List.Perm
      (sortValuesDesc (fun p => p.2.getD 0) (l.filter (fun p => p.2.isSome)))
      (l.filter (fun p => p.2.isSome)) := sortValuesDesc_perm _ _
  have h3 : l.filter (fun p => p.2.isNone) = l.filter (fun p => !(p.2.isSome)) := by
    apply List.filter_congr
    intro p _
    cases p.2 <;> rfl
  have h4 := List.filter_append_perm (fun p => p.2.isSome) l
  rw [sortCorrDesc, h3]
  exact (h1.append_right _).trans h4

/-- Claim C8: each of the five estimator frames contains exactly one
record per feature of `available_features` (its key list is a
permutation of `available_features`, which has no duplicates), and the
four chained inner merges on feature name therefore drop nothing: the
merged table's key column is exactly the first frame's key column,
a permutation of `available_features`, so every available feature
survives the merge.  The length hypotheses are the sklearn contracts
that the importance/mutual-information/PCA outputs have one entry per
feature column. -/
theorem merge_retains_available_features (cols : List String) (lib : SkLib)
    (Xcol : String → List ℚ) (ys : List ℚ)
    (hrf : (lib.rfFeatureImportances 100 10 42
        ((available_features cols).map Xcol) ys).length =
      (available_features cols).length)
    (hmi : (lib.mutualInfoClassif 42
        ((available_features cols).map Xcol) ys).length =
      (available_features cols).length)
    (hpca : (lib.pcaReconstruct (min 20 (available_features cols).length) 42
        (standardize ((available_features cols).map Xcol))).length =
      (available_features cols).length) :
    List.Perm
      ((runFrames lib (available_features cols) Xcol ys).feature_importance.map Prod.fst)
      (available_features cols) ∧
    List.Perm
      ((runFrames lib (available_features cols) Xcol ys).mutual_info.map Prod.fst)
      (available_features cols) ∧
    List.Perm
      ((runFrames lib (available_features cols) Xcol ys).correlation_df.map Prod.fst)
      (available_features cols) ∧
    List.Perm
      ((runFrames lib (available_features cols) Xcol ys).separability_df.map Prod.fst)
      (available_features cols) ∧
    List.Perm
      ((runFrames lib (available_features cols) Xcol ys).reconstruction_df.map Prod.fst)
      (available_features cols) ∧
    (mergedFrames lib (available_features cols) Xcol ys).map Prod.fst =
      (runFrames lib (available_features cols) Xcol ys).feature_importance.map Prod.fst ∧
    ∀ f ∈ available_features cols,
      f ∈ (mergedFrames lib (available_features cols) Xcol ys).map Prod.fst := by
  have hfs : (available_features cols).Nodup := available_features_nodup cols
  have perm1 : List.Perm
      ((runFrames lib (available_features cols) Xcol ys).feature_importance.map Prod.fst)
      (available_features cols) := by
    have hp := (sortValuesDesc_perm Prod.snd
      ((available_features cols).zip
        (lib.rfFeatureImportances 100 10 42
          ((available_features cols).map Xcol) ys))).map Prod.fst
    rw [List.map_fst_zip _ _ (le_of_eq hrf.symm)] at hp
    exact hp
  have perm2 : List.Perm
      ((runFrames lib (available_features cols) Xcol ys).mutual_info.map Prod.fst)
      (available_features cols) := by
    have hp := (sortValuesDesc_perm Prod.snd
      ((available_features cols).zip
        (lib.mutualInfoClassif 42 ((available_features cols).map Xcol) ys))).map Prod.fst
    rw [List.map_fst_zip _ _ (le_of_eq hmi.symm)] at hp
    exact hp
  have perm3 : List.Perm
      ((runFrames lib (available_features cols) Xcol ys).correlation_df.map Prod.fst)
      (available_features cols) := by
    have hp := (sortCorrDesc_perm
      ((available_features cols).map
        (fun f => (f, correlationEntry (Xcol f) ys)))).map Prod.fst
    have he : (((available_features cols).map
        (fun f => (f, correlationEntry (Xcol f) ys))).map Prod.fst) =
        available_features cols := by
      rw [List.map_map]
      exact List.map_id _
    rw [he] at hp
    exact hp
  have perm4 : List.Perm
      ((runFrames lib (available_features cols) Xcol ys).separability_df.map Prod.fst)
      (available_features cols) := by
    have hp := (sortValuesDesc_perm Prod.snd
      ((available_features cols).map
        (fun f => (f, cohens_d (selectByLabel (Xcol f) ys 0)
          (selectByLabel (Xcol f) ys 1))))).map Prod.fst
    have he : (((available_features cols).map
        (fun f => (f, cohens_d (selectByLabel (Xcol f) ys 0)
          (selectByLabel (Xcol f) ys 1)))).map Prod.fst) =
        available_features cols := by
      rw [List.map_map]
      exact List.map_id _
    rw [he] at hp
    exact hp
  have hk5 : (runFrames lib (available_features cols) Xcol ys).reconstruction_df.map Prod.fst =
      available_features cols := by
    have hstd : (standardize ((available_features cols).map Xcol)).length =
        (available_features cols).length := by
      rw [standardize, List.length_map, List.length_map]
    apply List.map_fst_zip
    rw [List.length_zipWith, hstd, hpca]
    exact le_min (le_refl _) (le_refl _)
  have perm5 : List.Perm
      ((runFrames lib (available_features cols) Xcol ys).reconstruction_df.map Prod.fst)
      (available_features cols) := by
    rw [hk5]
  have nd2 := perm2.nodup_iff.2 hfs
  have nd3 := perm3.nodup_iff.2 hfs
  have nd4 := perm4.nodup_iff.2 hfs
  have nd5 := perm5.nodup_iff.2 hfs
  have kk1 := innerJoin_keys
    (runFrames lib (available_features cols) Xcol ys).feature_importance
    (runFrames lib (available_features cols) Xcol ys).mutual_info nd2
    (fun k hk => perm2.mem_iff.2 (perm1.mem_iff.1 hk))
  have kk2 := innerJoin_keys _
    (runFrames lib (available_features cols) Xcol ys).correlation_df nd3
    (fun k hk => by
      rw [kk1] at hk
      exact perm3.mem_iff.2 (perm1.mem_iff.1 hk))
  have kk3 := innerJoin_keys _
    (runFrames lib (available_features cols) Xcol ys).separability_df nd4
    (fun k hk => by
      rw [kk2, kk1] at hk
      exact perm4.mem_iff.2 (perm1.mem_iff.1 hk))
  have kk4 := innerJoin_keys _
    (runFrames lib (available_features cols) Xcol ys).reconstruction_df nd5
    (fun k hk => by
      rw [kk3, kk2, kk1] at hk
      exact perm5.mem_iff.2 (perm1.mem_iff.1 hk))
  have hmerged : (mergedFrames lib (available_features cols) Xcol ys).map Prod.fst =
      (runFrames lib (available_features cols) Xcol ys).feature_importance.map Prod.fst := by
    rw [mergedFrames, mergeFive, kk4, kk3, kk2, kk1]
  refine ⟨perm1, perm2, perm3, perm4, perm5, hmerged, ?_⟩
  intro f hf
  rw [hmerged]
  exact perm1.mem_iff.2 hf

/-- Witness for C8: with a one-feature table and stub estimator
behaviors of the contractually correct output lengths, the feature
"Flow Duration" survives the full merge chain. -/
theorem merge_retains_available_features_witness :
    "Flow Duration" ∈ (mergedFrames
      ⟨fun _ _ _ M _ => M.map (fun _ => 0), fun _ M _ => M.map (fun _ => 0),
        fun _ _ M => M⟩
      (available_features ["Flow Duration"]) (fun _ => [1]) [0]).map Prod.fst :=
  (merge_retains_available_features ["Flow Duration"]
    ⟨fun _ _ _ M _ => M.map (fun _ => 0), fun _ M _ => M.map (fun _ => 0),
      fun _ _ M => M⟩
    (fun _ => [1]) [0] (by simp) (by simp)
    (by simp [standardize])).2.2.2.2.2.2 "Flow Duration" (by decide)

/-- Claim C10: for a fixed sampled feature matrix and label vector the
downstream metric stage is deterministic.  The three stochastic sklearn
estimators are each invoked at the fixed seed `random_state = 42`, and
the remaining stages (Spearman correlation, Cohen's d, scaler,
reconstruction error, and all later normalization/scoring/sorting
functions, which are plain functions of these frames) take no seed at
all -- so two runs whose library behaviors agree at seed 42 (as two runs
of the same deterministic sklearn version do) produce identical metric
frames on the identical sample, even though the sampling stage itself is
unseeded. -/
theorem pipeline_deterministic_given_sample (lib1 lib2 : SkLib)
    (hrf : lib1.rfFeatureImportances 100 10 42 = lib2.rfFeatureImportances 100 10 42)
    (hmi : lib1.mutualInfoClassif 42 = lib2.mutualInfoClassif 42)
    (hpca : ∀ n, lib1.pcaReconstruct n 42 = lib2.pcaReconstruct n 42)
    (feats : List String) (Xcol : String → List ℚ) (ys : List ℚ) :
    runFrames lib1 feats Xcol ys = runFrames lib2 feats Xcol ys := by
  unfold runFrames
  rw [hrf, hmi, hpca (min 20 feats.length)]

/-- Witness for C10 with a concrete library stub and sample. -/
theorem pipeline_deterministic_given_sample_witness :
    runFrames ⟨fun _ _ _ _ _ => [], fun _ _ _ => [], fun _ _ _ => []⟩
        ["Flow Duration"] (fun _ => [1]) [0] =
      runFrames ⟨fun _ _ _ _ _ => [], fun _ _ _ => [], fun _ _ _ => []⟩
        ["Flow Duration"] (fun _ => [1]) [0] :=
  pipeline_deterministic_given_sample _ _ rfl rfl (fun _ => rfl)
    ["Flow Duration"] (fun _ => [1]) [0]
